import Mathlib

/-!
# Chat client: store, event handlers and their properties

A shallow embedding of `src/store/useChatStore.js` and of the event handlers of
`src/Chat.js`.

Modelling conventions.

* A JavaScript value that is `null` or a string (`currentUser`, `selectedUser`,
  `localStorage.getItem`) is an `Option String`; `truthy` is JavaScript truthiness
  on such a value (`null` and `''` are falsy).
* The unread-count object is a plain object: its own entries are modelled by the
  function `String → Option CountValue` (`none` is a key with no own entry), and
  `{...prev, [k]: v}` is `setCount prev k v`. Reading `prev[k]` also sees the members
  inherited from `Object.prototype` (`getProperty`). A count is a non-negative
  integer held in a double (`jsAddOne`); an entry can also hold a string.
* A handler returns the next state together with the list of side effects
  (socket emissions, notification sound, alert) its body performs, in order.
* Handlers run one at a time. The socket handlers are closures created when the
  subscription effect last ran: the `messages` array they read is the one of the last
  render (`renderedMessages`), which lags behind the store when several socket events
  are handled before the component re-renders (event `render`). A user action is a
  discrete event dispatched in a task of its own: the component is rendered before
  the next event is handled, so `currentUser` and `selectedUser`, which only user
  actions change, are always the rendered ones.
* The recorded effects are those of the handler bodies. The `join` and `get-users`
  emissions made each time the subscription effect re-runs after a render are not
  part of any handler and are not recorded.
* `String.prototype.localeCompare` and `Date.prototype.toLocaleDateString` are host
  functions; they are parameters of the definitions that call them.
* Timestamps are integer milliseconds.
-/

namespace ChatApp

/-! ## Data model -/

/-- A chat message as delivered by the server. -/
structure Message where
  sender : String
  receiver : String
  text : String
  timestamp : Int
  read : Bool
  deriving DecidableEq, Repr

/-- A roster entry as delivered in a `users-list` payload. -/
structure User where
  username : String
  isOnline : Bool
  lastSeen : Int
  deriving DecidableEq, Repr

/-- A value held by an entry of the unread-count object: a number (a non-negative
integer in a double) or a string. -/
inductive CountValue where
  | number (n : Nat)
  | text (s : String)
  deriving DecidableEq, Repr

/-- The outcome of reading `prev[key]` on a plain object: an own entry, a member
inherited from `Object.prototype` (given by its string conversion), or `undefined`. -/
inductive Property where
  | own (value : CountValue)
  | inherited (printed : String)
  | missing
  deriving DecidableEq, Repr

/-- Side effects performed by the handlers. -/
inductive Effect where
  | emitJoin (username : Option String)
  | emitGetUsers
  | emitGetMessages (user1 user2 : Option String)
  | emitMarkRead (reader sender : Option String)
  | emitPrivateMessage (sender receiver : Option String) (text : String)
  | emitRegisterUser (username : String)
  | playNotificationSound
  | alert (message : String)
  deriving DecidableEq, Repr

/-- The zustand store (`currentUser`, `selectedUser`, `messages`), the component state
of `Chat` (`message`, `allUsers`, `unreadCounts`), the `localStorage` entry
`currentUser`, whether a `chat-history` listener is currently registered, and the
`messages` array of the last render, the one the socket handlers have captured. -/
structure ChatState where
  currentUser : Option String
  selectedUser : Option String
  messages : List Message
  message : String
  allUsers : List User
  unreadCounts : String → Option CountValue
  storedUser : Option String
  historyListener : Bool
  renderedMessages : List Message

/-- JavaScript truthiness of a value that is `null` or a string. -/
def truthy : Option String → Bool
  | some s => s != ""
  | none => false

/-- The object `{...prev, [key]: value}`: a computed key always creates an own entry. -/
def setCount (prev : String → Option CountValue) (key : String) (value : CountValue) :
    String → Option CountValue :=
  fun k => if k = key then some value else prev k

/-- The property names of `Object.prototype` in a browser. -/
def objectPrototypeKeys : List String :=
  ["constructor", "__defineGetter__", "__defineSetter__", "hasOwnProperty",
   "__lookupGetter__", "__lookupSetter__", "isPrototypeOf", "propertyIsEnumerable",
   "toString", "valueOf", "__proto__", "toLocaleString"]

/-- The string conversion of the member of `Object.prototype` with the given name, as
printed by V8: `constructor` is the function `Object`, `__proto__` reads as the
prototype object itself, every other member is a native function of that name. -/
def printedPrototypeMember (key : String) : String :=
  if key = "__proto__" then "[object Object]"
  else if key = "constructor" then "function Object() { [native code] }"
  else "function " ++ key ++ "() { [native code] }"

/-- The expression `prev[key]` on the plain object `prev`. -/
def getProperty (prev : String → Option CountValue) (key : String) : Property :=
  match prev key with
  | some value => Property.own value
  | none =>
    if key ∈ objectPrototypeKeys then Property.inherited (printedPrototypeMember key)
    else Property.missing

/-- The sum `n + 1` of doubles for a non-negative integer `n` held in a double: exact
below `2 ^ 53`; from there on `n + 1` is not representable and is rounded to the nearest
double, ties to the even significand. -/
def jsAddOne (n : Nat) : Nat :=
  if n < 2 ^ 53 then n + 1
  else if n < 2 ^ 54 ∧ n % 4 = 2 then n + 2
  else n

/-- The expression `(p || 0) + 1` for `p` the outcome of `prev[key]`: `0`, `''` and
`undefined` are falsy; a string or an inherited member is concatenated with `'1'`. -/
def orZeroPlusOne : Property → CountValue
  | .own (.number n) => CountValue.number (jsAddOne n)
  | .own (.text s) => if s = "" then CountValue.number 1 else CountValue.text (s ++ "1")
  | .inherited printed => CountValue.text (printed ++ "1")
  | .missing => CountValue.number 1

/-- The store at creation: `currentUser` is read from `localStorage`, nothing is
selected, there are no messages; the component state is at its `useState` defaults. -/
def initialState (stored : Option String) : ChatState :=
  { currentUser := stored
    selectedUser := none
    messages := []
    message := ""
    allUsers := []
    unreadCounts := fun _ => none
    storedUser := stored
    historyListener := false
    renderedMessages := [] }

/-- A render of the component followed by its effects: the subscription effect
(dependencies `[currentUser, selectedUser, messages]`) re-registers the socket handlers,
which from then on read the `messages` array of this render. -/
def rerender (st : ChatState) : ChatState :=
  { st with renderedMessages := st.messages }

/-! ## Store actions (`useChatStore.js`) -/

/-- `setCurrentUser: (user) => set({ currentUser: user || localStorage.getItem('currentUser') })` -/
def setCurrentUser (st : ChatState) (user : Option String) : ChatState :=
  { st with currentUser := if truthy user then user else st.storedUser }

/-- `setSelectedUser: (user) => set({ selectedUser: user })` -/
def setSelectedUser (st : ChatState) (user : Option String) : ChatState :=
  { st with selectedUser := user }

/-- `setMessages: (messages) => set({ messages })` -/
def setMessages (st : ChatState) (messages : List Message) : ChatState :=
  { st with messages := messages }

/-- `addMessage: (message) => set((state) => ({ messages: [...state.messages, message] }))` -/
def addMessage (st : ChatState) (message : Message) : ChatState :=
  { st with messages := st.messages ++ [message] }

/-! ## Socket handlers (`Chat.js`) -/

/-- The comparator passed to `sort` in the `users-list` handler. -/
def compareUsers (localeCompare : String → String → Int) (a b : User) : Int :=
  if a.isOnline != b.isOnline then
    (if a.isOnline then -1 else 1)
  else
    localeCompare a.username b.username

/-- `Array.prototype.sort(comparator)`: a stable sort (ECMAScript 2019); `a` is placed
before `b` when `comparator(a, b) ≤ 0`. -/
def jsSort {α : Type} (comparator : α → α → Int) (xs : List α) : List α :=
  xs.insertionSort (fun a b => comparator a b ≤ 0)

/-- Handler of `users-list`. -/
def onUsersList (localeCompare : String → String → Int) (st : ChatState)
    (users : List User) : ChatState :=
  let filteredUsers :=
    jsSort (compareUsers localeCompare)
      (users.filter (fun user => decide (some user.username ≠ st.currentUser)))
  { st with allUsers := filteredUsers }

/-- Handler of `user-connected`. -/
def onUserConnected (st : ChatState) (username : String) : ChatState × List Effect :=
  if some username ≠ st.currentUser then (st, [Effect.emitGetUsers]) else (st, [])

/-- Handler of `user-disconnected`. -/
def onUserDisconnected (st : ChatState) (_username : String) : ChatState × List Effect :=
  (st, [Effect.emitGetUsers])

/-- Handler of `unread-counts`. -/
def onUnreadCounts (st : ChatState) (counts : String → Option CountValue) : ChatState :=
  { st with unreadCounts := counts }

/-- Handler of `private-message`. -/
def onPrivateMessage (st : ChatState) (msg : Message) : ChatState × List Effect :=
  let st1 := addMessage st msg
  if some msg.sender = st.selectedUser ∧ some msg.receiver = st.currentUser then
    (st1, [Effect.emitMarkRead st.currentUser st.selectedUser])
  else if some msg.sender ≠ st.currentUser ∧ some msg.receiver = st.currentUser then
    ({ st1 with
        unreadCounts :=
          setCount st1.unreadCounts msg.sender
            (orZeroPlusOne (getProperty st1.unreadCounts msg.sender)) },
      [Effect.playNotificationSound])
  else
    (st1, [])

/-- Handler of `messages-read`: `setMessages(messages.map(...))`, where `messages` is the
array the handler captured at the last render. -/
def onMessagesRead (st : ChatState) (reader : String) : ChatState :=
  if some reader = st.selectedUser then
    setMessages st
      (st.renderedMessages.map (fun msg =>
        if some msg.sender = st.currentUser ∧ msg.receiver = reader then
          { msg with read := true }
        else msg))
  else st

/-- Handler of `error`. -/
def onError (st : ChatState) (message : String) : ChatState × List Effect :=
  (st, [Effect.alert message])

/-- Handler of `chat-history`. -/
def onChatHistory (st : ChatState) (msgs : List Message) : ChatState :=
  setMessages st msgs

/-- The effect `useEffect(..., [selectedUser])`: the cleanup of the previous run removes
the `chat-history` listener; the body, when both users are truthy, requests the
history, registers the listener, emits `mark-read` and resets the selected peer's
unread counter. -/
def selectionEffect (st : ChatState) : ChatState × List Effect :=
  match st.selectedUser with
  | some selected =>
    if truthy st.currentUser && truthy (some selected) then
      ({ st with
          historyListener := true
          unreadCounts := setCount st.unreadCounts selected (CountValue.number 0) },
        [Effect.emitGetMessages st.currentUser (some selected),
         Effect.emitMarkRead st.currentUser (some selected)])
    else
      ({ st with historyListener := false }, [])
  | none => ({ st with historyListener := false }, [])

/-- A click on a roster row: `setSelectedUser(user.username)`. The selection effect
runs only when the dependency `selectedUser` has changed. -/
def selectUser (st : ChatState) (username : String) : ChatState × List Effect :=
  if st.selectedUser = some username then (st, [])
  else selectionEffect (setSelectedUser st (some username))

/-! ## Local actions -/

/-- White space and line terminators of ECMAScript, the characters removed by
`String.prototype.trim`. -/
def isJsWhiteSpace (c : Char) : Bool :=
  decide (c.toNat ∈ [0x9, 0xA, 0xB, 0xC, 0xD, 0x20, 0xA0, 0x1680, 0x2028, 0x2029,
    0x202F, 0x205F, 0x3000, 0xFEFF]) || (decide (0x2000 ≤ c.toNat) && decide (c.toNat ≤ 0x200A))

/-- `String.prototype.trim`. -/
def jsTrim (s : String) : String :=
  String.mk ((s.data.dropWhile isJsWhiteSpace).rdropWhile isJsWhiteSpace)

/-- `sendMessage`: an empty string is falsy. -/
def sendMessage (st : ChatState) : ChatState × List Effect :=
  if jsTrim st.message ≠ "" then
    ({ st with message := "" },
      [Effect.emitPrivateMessage st.currentUser st.selectedUser st.message])
  else
    (st, [])

/-- `handleUserRegistration`, applied to the value of the `username` input. -/
def handleUserRegistration (st : ChatState) (input : String) : ChatState × List Effect :=
  let username := jsTrim input
  if username ≠ "" then
    (setCurrentUser { st with storedUser := some username } (some username),
      [Effect.emitRegisterUser username])
  else
    (st, [])

/-- `formatLastSeen`, with `now` the value of `new Date()` and `date` the time stamp of
`new Date(date)`, both in milliseconds. The difference of two time stamps is an integer
below `2 ^ 53` in magnitude, and for such a value the double-precision quotient by 60000
(then 60, then 24) has the same floor as the exact quotient, so `Math.floor(x / c)` is
floor division. -/
def formatLastSeen (toLocaleDateString : Int → String) (now date : Int) : String :=
  let lastSeen := date
  let diffMs := now - lastSeen
  let diffMins := Int.fdiv diffMs 60000
  let diffHrs := Int.fdiv diffMins 60
  let diffDays := Int.fdiv diffHrs 24
  if diffMins < 1 then "just now"
  else if diffMins < 60 then toString diffMins ++ " min ago"
  else if diffHrs < 24 then toString diffHrs ++ " hr ago"
  else if diffDays < 7 then toString diffDays ++ " day ago"
  else toLocaleDateString lastSeen

/-- The status line of a roster row:
`user.isOnline ? 'Online' : 'Last seen ' + formatLastSeen(user.lastSeen)`. -/
def rosterStatus (toLocaleDateString : Int → String) (now : Int) (user : User) : String :=
  if user.isOnline then "Online"
  else "Last seen " ++ formatLastSeen toLocaleDateString now user.lastSeen

/-! ## The event loop -/

/-- Events the component reacts to: socket events, user actions, and a re-render of the
component after socket events. -/
inductive Event where
  | usersList (users : List User)
  | userConnected (username : String)
  | userDisconnected (username : String)
  | unreadCounts (counts : String → Option CountValue)
  | privateMessage (msg : Message)
  | messagesRead (reader : String)
  | chatHistory (msgs : List Message)
  | error (message : String)
  | selectUser (username : String)
  | setMessage (text : String)
  | sendMessage
  | register (input : String)
  | render

/-- One event. The socket handlers of the first effect are registered only while
`currentUser` is truthy (`if (!currentUser) return;`); the `chat-history` listener
only while the selection effect has registered it. A user action is followed by a
render before the next event. -/
def step (localeCompare : String → String → Int) (st : ChatState) :
    Event → ChatState × List Effect
  | .usersList users =>
    if truthy st.currentUser then (onUsersList localeCompare st users, []) else (st, [])
  | .userConnected username =>
    if truthy st.currentUser then onUserConnected st username else (st, [])
  | .userDisconnected username =>
    if truthy st.currentUser then onUserDisconnected st username else (st, [])
  | .unreadCounts counts =>
    if truthy st.currentUser then (onUnreadCounts st counts, []) else (st, [])
  | .privateMessage msg =>
    if truthy st.currentUser then onPrivateMessage st msg else (st, [])
  | .messagesRead reader =>
    if truthy st.currentUser then (onMessagesRead st reader, []) else (st, [])
  | .chatHistory msgs =>
    if st.historyListener then (onChatHistory st msgs, []) else (st, [])
  | .error message =>
    if truthy st.currentUser then onError st message else (st, [])
  | .selectUser username => (rerender (selectUser st username).1, (selectUser st username).2)
  | .setMessage text => (rerender { st with message := text }, [])
  | .sendMessage => (rerender (sendMessage st).1, (sendMessage st).2)
  | .register input =>
    (rerender (handleUserRegistration st input).1, (handleUserRegistration st input).2)
  | .render => (rerender st, [])

/-- The state after a sequence of events. -/
def run (localeCompare : String → String → Int) (st : ChatState) (events : List Event) :
    ChatState :=
  events.foldl (fun s e => (step localeCompare s e).1) st

/-- Code-point order on character lists. -/
def codePointCompare : List Char → List Char → Int
  | [], [] => 0
  | [], _ :: _ => -1
  | _ :: _, [] => 1
  | a :: as, b :: bs =>
    if a.toNat < b.toNat then -1
    else if b.toNat < a.toNat then 1
    else codePointCompare as bs

/-- Code-point order on strings, the order `localeCompare` induces on lower-case ASCII
names; used for concrete rosters. -/
def asciiCompare (a b : String) : Int :=
  codePointCompare a.data b.data

/-! ## Predicates used in the statements -/

/-- Whether an event is `unread-counts`. -/
def Event.isUnreadCounts : Event → Bool
  | .unreadCounts _ => true
  | _ => false

/-- Whether an event is `chat-history`. -/
def Event.isChatHistory : Event → Bool
  | .chatHistory _ => true
  | _ => false

/-- The unread counter of the selected peer is 0 or absent, whenever a peer is selected
(`selectedUser` truthy, the test the component itself uses). -/
def ActiveCountZero (st : ChatState) : Prop :=
  ∀ p, st.selectedUser = some p → truthy (some p) = true →
    st.unreadCounts p = none ∨ st.unreadCounts p = some (CountValue.number 0)

/-- Two messages with the same dedup key (sender, receiver, timestamp). -/
def SameKey (a b : Message) : Prop :=
  a.sender = b.sender ∧ a.receiver = b.receiver ∧ a.timestamp = b.timestamp

instance (a b : Message) : Decidable (SameKey a b) := by
  unfold SameKey; infer_instance

/-- No message that is read in `before` has an entry with the same key and
`read = false` in `after`. -/
def ReadMonotone (before after : List Message) : Prop :=
  ∀ m ∈ before, m.read = true → ∀ n ∈ after, SameKey m n → n.read = true

/-- A text that is empty or consists only of white space. -/
def IsBlank (s : String) : Prop :=
  ∀ c ∈ s.data, isJsWhiteSpace c = true

/-- Whether a message is between the two given users, in either direction. -/
def Between (a b : Option String) (m : Message) : Prop :=
  (some m.sender = a ∧ some m.receiver = b) ∨ (some m.sender = b ∧ some m.receiver = a)

/-- The list is sorted by timestamp, ascending. -/
def SortedByTimestamp (msgs : List Message) : Prop :=
  msgs.Pairwise (fun a b => a.timestamp ≤ b.timestamp)

/-- Every `chat-history` payload of the sequence is sorted by timestamp, and every
`private-message` has, when it arrives, a timestamp not smaller than those stored. -/
def ArrivesInOrder (localeCompare : String → String → Int) : ChatState → List Event → Prop
  | _, [] => True
  | st, e :: es =>
    (match e with
      | .chatHistory msgs => SortedByTimestamp msgs
      | .privateMessage msg => ∀ m ∈ st.messages, m.timestamp ≤ msg.timestamp
      | _ => True)
    ∧ ArrivesInOrder localeCompare (step localeCompare st e).1 es

/-- Every `messages-read` of the sequence is handled after the component has
re-rendered: the list its handler has captured is the stored one. -/
def ReceiptsAfterRender (localeCompare : String → String → Int) :
    ChatState → List Event → Prop
  | _, [] => True
  | st, e :: es =>
    (match e with
      | .messagesRead _ => st.renderedMessages = st.messages
      | _ => True)
    ∧ ReceiptsAfterRender localeCompare (step localeCompare st e).1 es

/-! ## Concrete data for the scenarios -/

/-- A message to alice from a user whose name is `constructor`. -/
def msgConstructorAlice : Message :=
  { sender := "constructor", receiver := "alice", text := "hi", timestamp := 4000,
    read := false }

/-- An unread-count payload in which bob's count is `2 ^ 53`. -/
def bobHuge : String → Option CountValue :=
  fun k => if k = "bob" then some (CountValue.number 9007199254740992) else none

/-- A message from carol to alice. -/
def msgCarolAlice : Message :=
  { sender := "carol", receiver := "alice", text := "hey", timestamp := 3000, read := false }

/-- A message from bob to alice that is older than `msgBobAlice`. -/
def msgBobAliceOlder : Message :=
  { sender := "bob", receiver := "alice", text := "first", timestamp := 500, read := false }

/-- A message from bob to alice. -/
def msgBobAlice : Message :=
  { sender := "bob", receiver := "alice", text := "hi", timestamp := 1000, read := false }

/-- A message from alice to bob, already read. -/
def msgAliceBobRead : Message :=
  { sender := "alice", receiver := "bob", text := "hello", timestamp := 2000, read := true }

/-- The same message as `msgAliceBobRead` with its read flag cleared. -/
def msgAliceBobUnread : Message :=
  { msgAliceBobRead with read := false }

/-- The session of alice right after start-up. -/
def aliceStart : ChatState := initialState (some "alice")

/-- The session of carol right after start-up. -/
def carolStart : ChatState := initialState (some "carol")

/-- An unread-count payload that gives bob three unread messages. -/
def bobThree : String → Option CountValue :=
  fun k => if k = "bob" then some (CountValue.number 3) else none

/-- The roster payload of the sort-order scenario. -/
def rosterPayload : List User :=
  [ { username := "bob", isOnline := true, lastSeen := 0 },
    { username := "alice", isOnline := true, lastSeen := 0 },
    { username := "zed", isOnline := false, lastSeen := 0 } ]

/-- The session of alice with bob's conversation open, one read message to bob stored
and rendered. -/
def aliceReadingBob : ChatState :=
  run asciiCompare aliceStart [.selectUser "bob", .chatHistory [msgAliceBobRead], .render]

/-! ## Basic facts about the handlers -/

theorem onPrivateMessage_messages (st : ChatState) (msg : Message) :
    (onPrivateMessage st msg).1.messages = st.messages ++ [msg] := by
  unfold onPrivateMessage addMessage
  split_ifs <;> rfl

theorem onPrivateMessage_currentUser (st : ChatState) (msg : Message) :
    (onPrivateMessage st msg).1.currentUser = st.currentUser := by
  unfold onPrivateMessage addMessage
  split_ifs <;> rfl

theorem run_nil (lc : String → String → Int) (st : ChatState) : run lc st [] = st := rfl

theorem run_cons (lc : String → String → Int) (st : ChatState) (e : Event)
    (es : List Event) : run lc st (e :: es) = run lc (step lc st e).1 es := rfl

theorem run_append (lc : String → String → Int) (st : ChatState) (es fs : List Event) :
    run lc st (es ++ fs) = run lc (run lc st es) fs := by
  unfold run
  rw [List.foldl_append]

theorem step_privateMessage (lc : String → String → Int) (st : ChatState) (msg : Message)
    (hcu : truthy st.currentUser = true) :
    step lc st (.privateMessage msg) = onPrivateMessage st msg := by
  simp [step, hcu]

theorem run_replicate_privateMessage (lc : String → String → Int) (msg : Message) (k : Nat) :
    ∀ st : ChatState, truthy st.currentUser = true →
      (run lc st (List.replicate k (.privateMessage msg))).messages
        = st.messages ++ List.replicate k msg := by
  induction k with
  | zero => intro st _; simp [run_nil]
  | succ k ih =>
    intro st hcu
    rw [List.replicate_succ, run_cons, step_privateMessage lc st msg hcu,
      ih _ (by rw [onPrivateMessage_currentUser]; exact hcu), onPrivateMessage_messages,
      List.replicate_succ]
    simp

/-! ## C1: duplicate deliveries of `private-message` -/

/-- C1, as stated, fails: alice's session receives the same `private-message` (same sender,
receiver and timestamp) twice; the stored count grows by 2, and the list after the
second delivery differs from the list after the first. -/
theorem C1_duplicate_delivery_stored_twice :
    (run asciiCompare aliceStart
        [.privateMessage msgBobAlice, .privateMessage msgBobAlice]).messages.length
      = aliceStart.messages.length + 2
    ∧ (run asciiCompare aliceStart
        [.privateMessage msgBobAlice, .privateMessage msgBobAlice]).messages
      ≠ (run asciiCompare aliceStart [.privateMessage msgBobAlice]).messages := by
  decide

/-- C1, amended: `addMessage` appends unconditionally, and in a registered session every
delivery of `private-message` appends the message to the tail of the stored list, so
`k` deliveries of the same message add `k` copies and the count grows by `k`. -/
theorem C1_every_delivery_appends (lc : String → String → Int) (st : ChatState)
    (msg : Message) (k : Nat) (hcu : truthy st.currentUser = true) :
    (addMessage st msg).messages = st.messages ++ [msg]
    ∧ (run lc st (List.replicate k (.privateMessage msg))).messages
        = st.messages ++ List.replicate k msg
    ∧ (run lc st (List.replicate k (.privateMessage msg))).messages.length
        = st.messages.length + k := by
  refine ⟨rfl, run_replicate_privateMessage lc msg k st hcu, ?_⟩
  rw [run_replicate_privateMessage lc msg k st hcu]
  simp

/-- Witness for C1: two deliveries to alice's fresh session. -/
theorem C1_every_delivery_appends_witness :
    truthy aliceStart.currentUser = true
    ∧ (run asciiCompare aliceStart (List.replicate 2 (.privateMessage msgBobAlice))).messages
        = aliceStart.messages ++ List.replicate 2 msgBobAlice :=
  ⟨by decide, (C1_every_delivery_appends asciiCompare aliceStart msgBobAlice 2 (by decide)).2.1⟩


theorem truthy_setCurrentUser_trim (st : ChatState) (u : String) (h : u ≠ "") :
    truthy (setCurrentUser { st with storedUser := some u } (some u)).currentUser = true := by
  simp [setCurrentUser, truthy, h]

theorem step_counts_invariant (lc : String → String → Int) (st : ChatState) (e : Event)
    (he : e.isUnreadCounts = false)
    (h1 : truthy st.currentUser = false → ∀ k, st.unreadCounts k = none)
    (h2 : ActiveCountZero st) :
    (truthy (step lc st e).1.currentUser = false → ∀ k, (step lc st e).1.unreadCounts k = none)
    ∧ ActiveCountZero (step lc st e).1 := by
  cases e with
  | unreadCounts c => simp [Event.isUnreadCounts] at he
  | usersList users =>
    simp only [step, onUsersList]; split_ifs <;> exact ⟨h1, h2⟩
  | userConnected u =>
    simp only [step, onUserConnected]; split_ifs <;> exact ⟨h1, h2⟩
  | userDisconnected u =>
    simp only [step, onUserDisconnected]; split_ifs <;> exact ⟨h1, h2⟩
  | error m =>
    simp only [step, onError]; split_ifs <;> exact ⟨h1, h2⟩
  | chatHistory msgs =>
    simp only [step, onChatHistory, setMessages]; split_ifs <;> exact ⟨h1, h2⟩
  | messagesRead r =>
    simp only [step, onMessagesRead, setMessages]; split_ifs <;> exact ⟨h1, h2⟩
  | setMessage t => exact ⟨h1, h2⟩
  | render => exact ⟨h1, h2⟩
  | sendMessage =>
    show (truthy (sendMessage st).1.currentUser = false →
        ∀ k, (sendMessage st).1.unreadCounts k = none) ∧ ActiveCountZero (sendMessage st).1
    simp only [sendMessage]; split_ifs <;> exact ⟨h1, h2⟩
  | register input =>
    show (truthy (handleUserRegistration st input).1.currentUser = false →
        ∀ k, (handleUserRegistration st input).1.unreadCounts k = none)
      ∧ ActiveCountZero (handleUserRegistration st input).1
    simp only [handleUserRegistration]
    split_ifs with hu
    · refine ⟨?_, h2⟩
      intro hf
      rw [truthy_setCurrentUser_trim st _ hu] at hf
      cases hf
    · exact ⟨h1, h2⟩
  | privateMessage msg =>
    simp only [step]
    split_ifs with hcu
    · unfold onPrivateMessage addMessage
      split_ifs with ha hb
      · exact ⟨h1, h2⟩
      · refine ⟨fun hf => ?_, ?_⟩
        · simp only [] at hf
          rw [hcu] at hf; cases hf
        · intro p hp ht
          simp only [] at hp ⊢
          have hne : p ≠ msg.sender := by
            rintro rfl
            exact ha ⟨hp.symm, hb.2⟩
          simp only [setCount, if_neg hne]
          exact h2 p hp ht
      · exact ⟨h1, h2⟩
    · exact ⟨h1, h2⟩
  | selectUser p =>
    show (truthy (selectUser st p).1.currentUser = false →
        ∀ k, (selectUser st p).1.unreadCounts k = none) ∧ ActiveCountZero (selectUser st p).1
    simp only [selectUser]
    split_ifs with hs
    · exact ⟨h1, h2⟩
    · simp only [selectionEffect, setSelectedUser]
      split_ifs with hg
      · simp only [Bool.and_eq_true] at hg
        refine ⟨fun hf => ?_, ?_⟩
        · simp only [] at hf
          rw [hg.1] at hf; cases hf
        · intro q hq _
          simp only [Option.some.injEq] at hq
          subst hq
          right
          simp [setCount]
      · refine ⟨h1, ?_⟩
        intro q hq ht
        simp only [Option.some.injEq] at hq
        subst hq
        simp only [Bool.and_eq_true, not_and] at hg
        have hcu : truthy st.currentUser = false := by
          cases h : truthy st.currentUser
          · rfl
          · exact absurd ht (hg h)
        left
        exact h1 hcu p

theorem run_counts_invariant (lc : String → String → Int) (events : List Event) :
    ∀ st : ChatState, (∀ e ∈ events, e.isUnreadCounts = false) →
      (truthy st.currentUser = false → ∀ k, st.unreadCounts k = none) →
      ActiveCountZero st →
      ActiveCountZero (run lc st events) := by
  induction events with
  | nil => intro st _ _ h2; exact h2
  | cons e es ih =>
    intro st hes h1 h2
    rw [run_cons]
    have hstep := step_counts_invariant lc st e (hes e (List.mem_cons_self _ _)) h1 h2
    exact ih _ (fun e' he' => hes e' (List.mem_cons_of_mem _ he')) hstep.1 hstep.2

/-! ## C2: the unread counter of the selected peer -/

/-- C2, as stated, fails: alice selects bob, then an `unread-counts` payload giving bob
three unread messages arrives; bob is still selected and his counter is 3. -/
theorem C2_unread_counts_overwrites_active_peer :
    (run asciiCompare aliceStart [.selectUser "bob", .unreadCounts bobThree]).selectedUser
      = some "bob"
    ∧ (run asciiCompare aliceStart [.selectUser "bob", .unreadCounts bobThree]).unreadCounts "bob"
      = some (CountValue.number 3)
    ∧ ¬ ActiveCountZero
        (run asciiCompare aliceStart [.selectUser "bob", .unreadCounts bobThree]) := by
  refine ⟨by decide, by decide, ?_⟩
  intro h
  have h3 := h "bob" (by decide) (by decide)
  revert h3
  decide

/-- C2, amended: in every state reachable from the initial state by a sequence of events
none of which is `unread-counts`, the unread counter of the selected peer is 0 or
absent whenever a peer is selected; an `unread-counts` event received by a registered
session replaces the whole map by its payload. -/
theorem C2_active_count_zero_without_unread_counts (lc : String → String → Int)
    (stored : Option String) (events : List Event)
    (hev : ∀ e ∈ events, e.isUnreadCounts = false) :
    ActiveCountZero (run lc (initialState stored) events)
    ∧ ∀ (st : ChatState) (counts : String → Option CountValue), truthy st.currentUser = true →
        (step lc st (.unreadCounts counts)).1.unreadCounts = counts := by
  refine ⟨run_counts_invariant lc events _ hev (fun _ _ => rfl) ?_, ?_⟩
  · intro p hp
    simp [initialState] at hp
  · intro st counts hcu
    simp [step, hcu, onUnreadCounts]

/-- Witness for C2: alice selects bob, a message from carol and one from bob arrive, and
bob's counter is still 0. -/
theorem C2_active_count_zero_without_unread_counts_witness :
    (∀ e ∈ [Event.selectUser "bob", Event.privateMessage msgBobAlice,
        Event.messagesRead "bob"], e.isUnreadCounts = false)
    ∧ ActiveCountZero (run asciiCompare (initialState (some "alice"))
        [Event.selectUser "bob", Event.privateMessage msgBobAlice, Event.messagesRead "bob"]) :=
  ⟨by decide,
    (C2_active_count_zero_without_unread_counts asciiCompare (some "alice")
      [Event.selectUser "bob", Event.privateMessage msgBobAlice, Event.messagesRead "bob"]
      (by decide)).1⟩

/-! ## C3: selecting a peer resets its counter -/

/-- C3: when the selection effect runs with `selectedUser = p` in a registered session
(current user set, `p` a non-empty username), the unread counter of `p` is 0 afterwards,
whatever it was before, and the counter of every other peer is unchanged. -/
theorem C3_select_resets_counter (st : ChatState) (p : String)
    (hcu : truthy st.currentUser = true) (hp : truthy (some p) = true) :
    (selectionEffect (setSelectedUser st (some p))).1.unreadCounts p
        = some (CountValue.number 0)
    ∧ ∀ q, q ≠ p →
        (selectionEffect (setSelectedUser st (some p))).1.unreadCounts q = st.unreadCounts q := by
  simp only [selectionEffect, setSelectedUser, hcu, hp, Bool.and_self, if_true]
  refine ⟨by simp [setCount], ?_⟩
  intro q hq
  simp [setCount, hq]

/-- Witness for C3: alice has three unread messages from bob and selects bob. -/
theorem C3_select_resets_counter_witness :
    truthy (onUnreadCounts aliceStart bobThree).currentUser = true
    ∧ truthy (some "bob") = true
    ∧ (onUnreadCounts aliceStart bobThree).unreadCounts "bob" = some (CountValue.number 3)
    ∧ (selectionEffect (setSelectedUser (onUnreadCounts aliceStart bobThree)
        (some "bob"))).1.unreadCounts "bob" = some (CountValue.number 0) :=
  ⟨by decide, by decide, by decide,
    (C3_select_resets_counter (onUnreadCounts aliceStart bobThree) "bob"
      (by decide) (by decide)).1⟩


theorem markRead_of_read (m : Message) (h : m.read = true) : { m with read := true } = m := by
  cases m
  simp only [] at h
  subst h
  rfl

theorem step_keeps_read_entry (lc : String → String → Int) (st : ChatState) (e : Event)
    (he : e.isChatHistory = false) (hf : ReceiptsAfterRender lc st [e]) (i : Nat)
    (m : Message) (hm : st.messages[i]? = some m) (hr : m.read = true) :
    (step lc st e).1.messages[i]? = some m := by
  cases e with
  | chatHistory msgs => simp [Event.isChatHistory] at he
  | render => exact hm
  | usersList users =>
    simp only [step, onUsersList]; split_ifs <;> exact hm
  | userConnected u =>
    simp only [step, onUserConnected]; split_ifs <;> exact hm
  | userDisconnected u =>
    simp only [step, onUserDisconnected]; split_ifs <;> exact hm
  | error msg =>
    simp only [step, onError]; split_ifs <;> exact hm
  | unreadCounts c =>
    simp only [step, onUnreadCounts]; split_ifs <;> exact hm
  | setMessage t => exact hm
  | sendMessage =>
    simp only [step, sendMessage]; split_ifs <;> exact hm
  | register input =>
    simp only [step, handleUserRegistration, setCurrentUser]; split_ifs <;> exact hm
  | selectUser p =>
    simp only [step, selectUser]
    split_ifs
    · exact hm
    · simp only [selectionEffect, setSelectedUser]
      split_ifs <;> exact hm
  | privateMessage msg =>
    simp only [step]
    split_ifs
    · rw [onPrivateMessage_messages]
      have hi : i < st.messages.length := by
        by_contra hge
        rw [List.getElem?_eq_none (Nat.le_of_not_lt hge)] at hm
        cases hm
      rw [List.getElem?_append_left hi]
      exact hm
    · exact hm
  | messagesRead r =>
    have hfresh : st.renderedMessages = st.messages := hf.1
    simp only [step, onMessagesRead, setMessages, hfresh]
    split_ifs
    · simp only [List.getElem?_map, hm, Option.map_some']
      split_ifs
      · rw [markRead_of_read m hr]
      · rfl
    · exact hm
    · exact hm

theorem run_keeps_read_entry (lc : String → String → Int) (events : List Event) :
    ∀ st : ChatState, (∀ e ∈ events, e.isChatHistory = false) →
      ReceiptsAfterRender lc st events →
      ∀ (i : Nat) (m : Message), st.messages[i]? = some m → m.read = true →
        (run lc st events).messages[i]? = some m := by
  induction events with
  | nil => intro st _ _ i m hm _; exact hm
  | cons e es ih =>
    intro st hes hf i m hm hr
    rw [run_cons]
    exact ih _ (fun e' he' => hes e' (List.mem_cons_of_mem _ he')) hf.2 i m
      (step_keeps_read_entry lc st e (hes e (List.mem_cons_self _ _)) ⟨hf.1, trivial⟩
        i m hm hr) hr

/-! ## C4: read flags -/

/-- C4, as stated, fails: alice's stored list holds a read message to bob; a `chat-history`
payload carrying the same message with `read = false` replaces the list, and a duplicate
`private-message` delivery with `read = false` adds an unread entry with the same key. -/
theorem C4_read_flag_reverts :
    (run asciiCompare aliceStart
        [.selectUser "bob", .chatHistory [msgAliceBobRead]]).messages = [msgAliceBobRead]
    ∧ (run asciiCompare aliceStart
        [.selectUser "bob", .chatHistory [msgAliceBobRead],
          .chatHistory [msgAliceBobUnread]]).messages = [msgAliceBobUnread]
    ∧ ¬ ReadMonotone
        (run asciiCompare aliceStart
          [.selectUser "bob", .chatHistory [msgAliceBobRead]]).messages
        (run asciiCompare aliceStart
          [.selectUser "bob", .chatHistory [msgAliceBobRead],
            .chatHistory [msgAliceBobUnread]]).messages
    ∧ ¬ ReadMonotone
        (run asciiCompare aliceStart
          [.selectUser "bob", .chatHistory [msgAliceBobRead]]).messages
        (run asciiCompare aliceStart
          [.selectUser "bob", .chatHistory [msgAliceBobRead],
            .privateMessage msgAliceBobUnread]).messages := by
  unfold ReadMonotone
  decide

/-- C4, amended: an entry of the stored message list whose `read` flag is true keeps its
position, all its fields and `read = true` under every sequence of events that contains
no `chat-history` and in which every `messages-read` is handled after the component has
re-rendered (`private-message` only appends at the tail, such a `messages-read` only
sets flags to true); a `chat-history` event received while its listener is registered
replaces the stored list by the payload, whatever flags the payload carries. -/
theorem C4_read_entries_kept (lc : String → String → Int) (st : ChatState)
    (events : List Event) (hev : ∀ e ∈ events, e.isChatHistory = false)
    (hfresh : ReceiptsAfterRender lc st events) :
    (∀ (i : Nat) (m : Message), st.messages[i]? = some m → m.read = true →
        (run lc st events).messages[i]? = some m)
    ∧ ∀ msgs : List Message, st.historyListener = true →
        (step lc st (.chatHistory msgs)).1.messages = msgs := by
  refine ⟨run_keeps_read_entry lc events st hev hfresh, ?_⟩
  intro msgs hl
  simp [step, hl, onChatHistory, setMessages]

/-- Witness for C4: with bob's conversation open and rendered, a duplicate delivery, a
render and a read receipt leave the read entry at index 0 as it was. -/
theorem C4_read_entries_kept_witness :
    (∀ e ∈ [Event.privateMessage msgAliceBobUnread, Event.render, Event.messagesRead "bob"],
        e.isChatHistory = false)
    ∧ ReceiptsAfterRender asciiCompare aliceReadingBob
        [Event.privateMessage msgAliceBobUnread, Event.render, Event.messagesRead "bob"]
    ∧ aliceReadingBob.messages[0]? = some msgAliceBobRead
    ∧ msgAliceBobRead.read = true
    ∧ (run asciiCompare aliceReadingBob
        [Event.privateMessage msgAliceBobUnread, Event.render,
          Event.messagesRead "bob"]).messages
        = [msgAliceBobRead, msgAliceBobRead]
    ∧ (run asciiCompare aliceReadingBob
        [Event.privateMessage msgAliceBobUnread, Event.render,
          Event.messagesRead "bob"]).messages[0]?
        = some msgAliceBobRead :=
  ⟨by decide, by simp only [ReceiptsAfterRender]; decide, by decide, by decide,
    by decide,
    (C4_read_entries_kept asciiCompare aliceReadingBob
      [Event.privateMessage msgAliceBobUnread, Event.render, Event.messagesRead "bob"]
      (by decide) (by simp only [ReceiptsAfterRender]; decide)).1
      0 msgAliceBobRead (by decide) (by decide)⟩

/-! ## C5: a history response for a peer that is no longer selected -/

/-- C5, as stated, fails: alice selects bob, then carol; the history of the conversation
with bob then arrives. It is not between alice and carol, yet it replaces the stored
message list. -/
theorem C5_stale_history_is_applied :
    (run asciiCompare aliceStart [.selectUser "bob", .selectUser "carol"]).selectedUser
      = some "carol"
    ∧ (run asciiCompare aliceStart [.selectUser "bob", .selectUser "carol"]).messages = []
    ∧ ¬ Between (some "alice") (some "carol") msgBobAlice
    ∧ (run asciiCompare aliceStart
        [.selectUser "bob", .selectUser "carol", .chatHistory [msgBobAlice]]).messages
      = [msgBobAlice]
    ∧ (run asciiCompare aliceStart
        [.selectUser "bob", .selectUser "carol", .chatHistory [msgBobAlice]]).messages
      ≠ (run asciiCompare aliceStart [.selectUser "bob", .selectUser "carol"]).messages := by
  unfold Between
  decide

/-- C5, amended: a `chat-history` payload is stored without any comparison with
`selectedUser`: once a registered session has selected a peer `p`, whatever payload
arrives next becomes the stored message list, whichever conversation it belongs to;
a payload has no effect only while no listener is registered, as in the initial state. -/
theorem C5_history_stored_unchecked (lc : String → String → Int) (st : ChatState)
    (p : String) (msgs : List Message) (hcu : truthy st.currentUser = true)
    (hp : truthy (some p) = true) (hsel : st.selectedUser ≠ some p) :
    (run lc st [.selectUser p, .chatHistory msgs]).messages = msgs
    ∧ (run lc st [.selectUser p, .chatHistory msgs]).selectedUser = some p
    ∧ ∀ stored : Option String,
        step lc (initialState stored) (.chatHistory msgs) = (initialState stored, []) := by
  have hstep : (step lc st (.selectUser p)).1
      = { st with selectedUser := some p, historyListener := true,
                  unreadCounts := setCount st.unreadCounts p (CountValue.number 0),
                  renderedMessages := st.messages } := by
    simp [step, selectUser, hsel, selectionEffect, setSelectedUser, hcu, hp, rerender]
  refine ⟨?_, ?_, ?_⟩
  · rw [run_cons, run_cons, run_nil, hstep]
    simp [step, onChatHistory, setMessages]
  · rw [run_cons, run_cons, run_nil, hstep]
    simp [step, onChatHistory, setMessages]
  · intro stored
    simp [step, initialState]

/-- Witness for C5: alice, with bob selected, selects carol and receives bob's history. -/
theorem C5_history_stored_unchecked_witness :
    truthy (run asciiCompare aliceStart [.selectUser "bob"]).currentUser = true
    ∧ truthy (some "carol") = true
    ∧ (run asciiCompare aliceStart [.selectUser "bob"]).selectedUser ≠ some "carol"
    ∧ (run asciiCompare (run asciiCompare aliceStart [.selectUser "bob"])
        [.selectUser "carol", .chatHistory [msgBobAlice]]).messages = [msgBobAlice] :=
  ⟨by decide, by decide, by decide,
    (C5_history_stored_unchecked asciiCompare (run asciiCompare aliceStart [.selectUser "bob"])
      "carol" [msgBobAlice] (by decide) (by decide) (by decide)).1⟩


theorem compareUsers_total (lc : String → String → Int)
    (htotal : ∀ a b, lc a b ≤ 0 ∨ lc b a ≤ 0) (a b : User) :
    compareUsers lc a b ≤ 0 ∨ compareUsers lc b a ≤ 0 := by
  unfold compareUsers
  rcases a with ⟨an, ao, al⟩
  rcases b with ⟨bn, bo, bl⟩
  cases ao <;> cases bo <;> simp <;> exact htotal _ _

theorem compareUsers_trans (lc : String → String → Int)
    (htrans : ∀ a b c, lc a b ≤ 0 → lc b c ≤ 0 → lc a c ≤ 0) (a b c : User) :
    compareUsers lc a b ≤ 0 → compareUsers lc b c ≤ 0 → compareUsers lc a c ≤ 0 := by
  unfold compareUsers
  rcases a with ⟨an, ao, al⟩
  rcases b with ⟨bn, bo, bl⟩
  rcases c with ⟨cn, co, cl⟩
  cases ao <;> cases bo <;> cases co <;> simp <;> exact htrans _ _ _

theorem compareUsers_le_zero (lc : String → String → Int) (a b : User)
    (h : compareUsers lc a b ≤ 0) :
    (b.isOnline = true → a.isOnline = true)
    ∧ (a.isOnline = b.isOnline → lc a.username b.username ≤ 0) := by
  unfold compareUsers at h
  rcases a with ⟨an, ao, al⟩
  rcases b with ⟨bn, bo, bl⟩
  cases ao <;> cases bo <;> simp at h ⊢ <;> exact h

theorem jsSort_perm {α : Type} (cmp : α → α → Int) (xs : List α) :
    (jsSort cmp xs).Perm xs :=
  List.perm_insertionSort _ xs

theorem jsSort_pairwise {α : Type} (cmp : α → α → Int)
    (htotal : ∀ a b, cmp a b ≤ 0 ∨ cmp b a ≤ 0)
    (htrans : ∀ a b c, cmp a b ≤ 0 → cmp b c ≤ 0 → cmp a c ≤ 0) (xs : List α) :
    (jsSort cmp xs).Pairwise (fun a b => cmp a b ≤ 0) := by
  haveI : IsTotal α (fun a b => cmp a b ≤ 0) := ⟨htotal⟩
  haveI : IsTrans α (fun a b => cmp a b ≤ 0) := ⟨htrans⟩
  exact List.sorted_insertionSort (fun a b => cmp a b ≤ 0) xs

theorem codePointCompare_total : ∀ a b : List Char,
    codePointCompare a b ≤ 0 ∨ codePointCompare b a ≤ 0
  | [], [] => by simp [codePointCompare]
  | [], _ :: _ => by simp [codePointCompare]
  | _ :: _, [] => by simp [codePointCompare]
  | a :: as, b :: bs => by
    have ih := codePointCompare_total as bs
    simp only [codePointCompare]
    split_ifs <;> omega

theorem codePointCompare_trans : ∀ a b c : List Char,
    codePointCompare a b ≤ 0 → codePointCompare b c ≤ 0 → codePointCompare a c ≤ 0
  | [], _, [] => by simp [codePointCompare]
  | [], _, _ :: _ => by simp [codePointCompare]
  | _ :: _, [], _ => by simp [codePointCompare]
  | _ :: _, _ :: _, [] => by simp [codePointCompare]
  | a :: as, b :: bs, c :: cs => by
    have ih := codePointCompare_trans as bs cs
    simp only [codePointCompare]
    split_ifs <;> omega

/-! ## C6: the roster stored on `users-list` -/

/-- C6: for a `localeCompare` that is a total preorder (total and transitive), the roster
stored by a registered session on `users-list` (a) has no entry named like the current
user, (b) is a permutation of the payload entries whose username differs from the
current user, and (c) is sorted: every online user precedes every offline user and,
among users of equal online status, usernames ascend in the `localeCompare` order. -/
theorem C6_roster_filtered_sorted (lc : String → String → Int)
    (htotal : ∀ a b, lc a b ≤ 0 ∨ lc b a ≤ 0)
    (htrans : ∀ a b c, lc a b ≤ 0 → lc b c ≤ 0 → lc a c ≤ 0)
    (st : ChatState) (users : List User) (hcu : truthy st.currentUser = true) :
    (∀ u ∈ (step lc st (.usersList users)).1.allUsers, some u.username ≠ st.currentUser)
    ∧ (step lc st (.usersList users)).1.allUsers.Perm
        (users.filter (fun u => decide (some u.username ≠ st.currentUser)))
    ∧ (step lc st (.usersList users)).1.allUsers.Pairwise
        (fun a b => (b.isOnline = true → a.isOnline = true)
          ∧ (a.isOnline = b.isOnline → lc a.username b.username ≤ 0)) := by
  have hstep : (step lc st (.usersList users)).1.allUsers
      = jsSort (compareUsers lc)
          (users.filter (fun u => decide (some u.username ≠ st.currentUser))) := by
    simp [step, hcu, onUsersList]
  rw [hstep]
  refine ⟨?_, jsSort_perm _ _, ?_⟩
  · intro u hu
    have hmem := (jsSort_perm (compareUsers lc) _).subset hu
    simpa using (List.mem_filter.mp hmem).2
  · exact (jsSort_pairwise (compareUsers lc) (compareUsers_total lc htotal)
      (compareUsers_trans lc htrans) _).imp (fun h => compareUsers_le_zero lc _ _ h)

/-- Witness for C6: carol receives [bob online, alice online, zed offline] and stores
[alice, bob, zed]. -/
theorem C6_roster_filtered_sorted_witness :
    truthy carolStart.currentUser = true
    ∧ (step asciiCompare carolStart (.usersList rosterPayload)).1.allUsers
        = [ { username := "alice", isOnline := true, lastSeen := 0 },
            { username := "bob", isOnline := true, lastSeen := 0 },
            { username := "zed", isOnline := false, lastSeen := 0 } ]
    ∧ (step asciiCompare carolStart (.usersList rosterPayload)).1.allUsers.Pairwise
        (fun a b => (b.isOnline = true → a.isOnline = true)
          ∧ (a.isOnline = b.isOnline → asciiCompare a.username b.username ≤ 0)) :=
  ⟨by decide, by decide,
    (C6_roster_filtered_sorted asciiCompare
      (fun a b => codePointCompare_total a.data b.data)
      (fun a b c => codePointCompare_trans a.data b.data c.data)
      carolStart rosterPayload (by decide)).2.2⟩


theorem onPrivateMessage_unread_regular (lc : String → String → Int) (st : ChatState)
    (msg : Message) (hcu : truthy st.currentUser = true)
    (hr : some msg.receiver = st.currentUser) (hs : some msg.sender ≠ st.currentUser)
    (hsel : some msg.sender ≠ st.selectedUser) :
    (step lc st (.privateMessage msg)).1.unreadCounts msg.sender
        = some (orZeroPlusOne (getProperty st.unreadCounts msg.sender))
    ∧ (∀ n : Nat, st.unreadCounts msg.sender = some (CountValue.number n) → n < 2 ^ 53 →
        (step lc st (.privateMessage msg)).1.unreadCounts msg.sender
          = some (CountValue.number (n + 1)))
    ∧ (st.unreadCounts msg.sender = none → msg.sender ∉ objectPrototypeKeys →
        (step lc st (.privateMessage msg)).1.unreadCounts msg.sender
          = some (CountValue.number 1))
    ∧ (step lc st (.privateMessage msg)).2 = [Effect.playNotificationSound]
    ∧ ∀ q, q ≠ msg.sender →
        (step lc st (.privateMessage msg)).1.unreadCounts q = st.unreadCounts q := by
  rw [step_privateMessage lc st msg hcu]
  have h1 : ¬ (some msg.sender = st.selectedUser ∧ some msg.receiver = st.currentUser) :=
    fun h => hsel h.1
  have h2 : some msg.sender ≠ st.currentUser ∧ some msg.receiver = st.currentUser :=
    ⟨hs, hr⟩
  have hres : onPrivateMessage st msg
      = ({ addMessage st msg with
            unreadCounts :=
              setCount st.unreadCounts msg.sender
                (orZeroPlusOne (getProperty st.unreadCounts msg.sender)) },
          [Effect.playNotificationSound]) := by
    simp only [onPrivateMessage, if_neg h1, if_pos h2, addMessage]
  rw [hres]
  have hown : setCount st.unreadCounts msg.sender
      (orZeroPlusOne (getProperty st.unreadCounts msg.sender)) msg.sender
        = some (orZeroPlusOne (getProperty st.unreadCounts msg.sender)) := by
    simp [setCount]
  refine ⟨hown, ?_, ?_, rfl, ?_⟩
  · intro n hn hlt
    show setCount st.unreadCounts msg.sender
      (orZeroPlusOne (getProperty st.unreadCounts msg.sender)) msg.sender = _
    rw [hown]
    simp only [getProperty, hn, orZeroPlusOne, jsAddOne, if_pos hlt]
  · intro hn hk
    show setCount st.unreadCounts msg.sender
      (orZeroPlusOne (getProperty st.unreadCounts msg.sender)) msg.sender = _
    rw [hown]
    simp [getProperty, hn, hk, orZeroPlusOne]
  · intro q hq
    show setCount st.unreadCounts msg.sender
      (orZeroPlusOne (getProperty st.unreadCounts msg.sender)) q = _
    simp [setCount, hq]

theorem onPrivateMessage_selected_peer (lc : String → String → Int) (st : ChatState)
    (msg : Message) (hcu : truthy st.currentUser = true)
    (hs : some msg.sender = st.selectedUser) (hr : some msg.receiver = st.currentUser) :
    (step lc st (.privateMessage msg)).1.unreadCounts = st.unreadCounts
    ∧ (step lc st (.privateMessage msg)).2
        = [Effect.emitMarkRead st.currentUser st.selectedUser] := by
  rw [step_privateMessage lc st msg hcu]
  have h1 : some msg.sender = st.selectedUser ∧ some msg.receiver = st.currentUser :=
    ⟨hs, hr⟩
  have hres : onPrivateMessage st msg
      = (addMessage st msg, [Effect.emitMarkRead st.currentUser st.selectedUser]) := by
    simp only [onPrivateMessage, if_pos h1]
  rw [hres]
  exact ⟨rfl, rfl⟩

/-! ## C7: unread accounting on `private-message` -/

/-- C7, failing input: alice has no peer selected and an empty unread-count object; a
`private-message` arrives from the user named `constructor`. The handler reads the
member `constructor` inherited from `Object.prototype` as the prior count and stores a
string, not the number 1; the sound is played once. With a prior count of `2 ^ 53` the
double sum leaves the counter where it was. -/
theorem C7_inherited_member_taken_for_count :
    truthy aliceStart.currentUser = true
    ∧ aliceStart.selectedUser = none
    ∧ aliceStart.unreadCounts "constructor" = none
    ∧ (step asciiCompare aliceStart (.privateMessage msgConstructorAlice)).1.unreadCounts
        "constructor" = some (CountValue.text "function Object() { [native code] }1")
    ∧ (step asciiCompare aliceStart (.privateMessage msgConstructorAlice)).1.unreadCounts
        "constructor" ≠ some (CountValue.number 1)
    ∧ (step asciiCompare aliceStart (.privateMessage msgConstructorAlice)).2
        = [Effect.playNotificationSound]
    ∧ (run asciiCompare aliceStart
        [.unreadCounts bobHuge, .privateMessage msgBobAlice]).unreadCounts "bob"
        = some (CountValue.number 9007199254740992) := by
  decide

theorem messagesRead_frame_after_render (lc : String → String → Int) (st : ChatState)
    (r : String) (hcu : truthy st.currentUser = true)
    (hfresh : st.renderedMessages = st.messages) :
    (some r = st.selectedUser →
      (step lc st (.messagesRead r)).1.messages.length = st.messages.length
      ∧ (∀ (i : Nat) (m : Message), st.messages[i]? = some m →
          ∃ n, (step lc st (.messagesRead r)).1.messages[i]? = some n
            ∧ ((some m.sender = st.currentUser ∧ m.receiver = r) →
                n.read = true ∧ n.sender = m.sender ∧ n.receiver = m.receiver
                ∧ n.text = m.text ∧ n.timestamp = m.timestamp)
            ∧ (¬ (some m.sender = st.currentUser ∧ m.receiver = r) → n = m))
      ∧ (step lc st (.messagesRead r)).1.unreadCounts = st.unreadCounts
      ∧ (step lc st (.messagesRead r)).1.allUsers = st.allUsers)
    ∧ (some r ≠ st.selectedUser → (step lc st (.messagesRead r)).1 = st) := by
  have hstep : (step lc st (.messagesRead r)).1 = onMessagesRead st r := by
    simp [step, hcu]
  rw [hstep]
  constructor
  · intro hsel
    simp only [onMessagesRead, if_pos hsel, setMessages, List.length_map, hfresh]
    refine ⟨trivial, ?_, trivial, trivial⟩
    intro i m hm
    simp only [List.getElem?_map, hm, Option.map_some', Option.some.injEq, exists_eq_left']
    constructor
    · intro hc
      rw [if_pos hc]
      exact ⟨rfl, rfl, rfl, rfl, rfl⟩
    · intro hc
      rw [if_neg hc]
  · intro hsel
    simp only [onMessagesRead, if_neg hsel]

/-! ## C10: read receipts -/

/-- C10, failing input: alice has bob's conversation open; the history of two messages
and bob's read receipt are handled before the component re-renders. The receipt handler
maps the `messages` array of the last render, which is still empty, and stores the
result: the stored list of two messages becomes empty instead of keeping its length
and order. -/
theorem C10_receipt_before_render_drops_messages :
    (run asciiCompare aliceStart
        [.selectUser "bob", .chatHistory [msgAliceBobUnread, msgBobAlice]]).selectedUser
      = some "bob"
    ∧ (run asciiCompare aliceStart
        [.selectUser "bob", .chatHistory [msgAliceBobUnread, msgBobAlice]]).messages
      = [msgAliceBobUnread, msgBobAlice]
    ∧ (run asciiCompare aliceStart
        [.selectUser "bob", .chatHistory [msgAliceBobUnread, msgBobAlice]]).renderedMessages
      = []
    ∧ (run asciiCompare aliceStart
        [.selectUser "bob", .chatHistory [msgAliceBobUnread, msgBobAlice],
          .messagesRead "bob"]).messages = []
    ∧ (run asciiCompare aliceStart
        [.selectUser "bob", .chatHistory [msgAliceBobUnread, msgBobAlice], .render,
          .messagesRead "bob"]).messages = [msgAliceBobRead, msgBobAlice] := by
  decide

theorem jsTrim_eq_empty_iff (s : String) : jsTrim s = "" ↔ IsBlank s := by
  unfold jsTrim IsBlank
  constructor
  · intro h
    have hnil : (s.data.dropWhile isJsWhiteSpace).rdropWhile isJsWhiteSpace = [] :=
      congrArg String.data h
    rw [List.rdropWhile_eq_nil_iff] at hnil
    by_cases hd : s.data.dropWhile isJsWhiteSpace = []
    · exact List.dropWhile_eq_nil_iff.mp hd
    · have h1 := List.head_dropWhile_not isJsWhiteSpace s.data hd
      have h2 := hnil _ (List.head_mem hd)
      rw [h1] at h2
      cases h2
  · intro h
    have hd : s.data.dropWhile isJsWhiteSpace = [] := List.dropWhile_eq_nil_iff.mpr h
    rw [hd]
    rfl

/-! ## C8: blank input is rejected locally -/

/-- C8: a message text or username that is empty or all white space is rejected: `sendMessage`
and `handleUserRegistration` emit nothing and leave the whole state (current user, message
list, persisted identity included) unchanged; a text with a non-white-space character makes
`sendMessage` emit `private-message` with that text, and such a username makes
`handleUserRegistration` emit `register-user` with the trimmed name. -/
theorem C8_blank_input_rejected (st : ChatState) (text : String) :
    (IsBlank text →
      sendMessage { st with message := text } = ({ st with message := text }, [])
      ∧ handleUserRegistration st text = (st, []))
    ∧ (¬ IsBlank text →
      (sendMessage { st with message := text }).2
          = [Effect.emitPrivateMessage st.currentUser st.selectedUser text]
      ∧ (handleUserRegistration st text).2 = [Effect.emitRegisterUser (jsTrim text)]
      ∧ (handleUserRegistration st text).1.currentUser = some (jsTrim text)
      ∧ (handleUserRegistration st text).1.storedUser = some (jsTrim text)) := by
  constructor
  · intro hb
    have ht : jsTrim text = "" := (jsTrim_eq_empty_iff text).mpr hb
    simp [sendMessage, handleUserRegistration, ht]
  · intro hb
    have ht : jsTrim text ≠ "" := fun h => hb ((jsTrim_eq_empty_iff text).mp h)
    simp [sendMessage, handleUserRegistration, ht, setCurrentUser, truthy]

/-- Witness for C8: a text of blanks and a tab is rejected, a padded name is accepted. -/
theorem C8_blank_input_rejected_witness :
    IsBlank "  \t " ∧ ¬ IsBlank " bob "
    ∧ sendMessage { aliceStart with message := "  \t " }
        = ({ aliceStart with message := "  \t " }, [])
    ∧ (handleUserRegistration (initialState none) " bob ").2 = [Effect.emitRegisterUser "bob"] :=
  ⟨by unfold IsBlank; decide, by unfold IsBlank; decide,
    ((C8_blank_input_rejected aliceStart "  \t ").1 (by unfold IsBlank; decide)).1,
    by
      have h := ((C8_blank_input_rejected (initialState none) " bob ").2
        (by unfold IsBlank; decide)).2.1
      rw [h]
      decide⟩

theorem fdiv_eq_floor (a : Int) (d : Nat) :
    Int.fdiv a (d : Int) = ⌊(a : ℚ) / (d : ℚ)⌋ := by
  rw [Rat.floor_intCast_div_natCast, Int.fdiv_eq_ediv a (Int.ofNat_nonneg d)]

/-! ## C9: `formatLastSeen` -/

/-- C9: with `m`, `h`, `days` the exact floors of the elapsed milliseconds over 60000, of
`m` over 60 and of `h` over 24, `formatLastSeen` returns 'just now' if `m < 1`, 'm min ago'
if `1 ≤ m < 60`, 'h hr ago' if `m ≥ 60` and `h < 24`, 'days day ago' if `h ≥ 24` and
`days < 7`; an offline user last seen 90 minutes ago is shown as 'Last seen 1 hr ago'. -/
theorem C9_formatLastSeen_floor (tl : Int → String) (now lastSeen : Int) (name : String) :
    (⌊((now - lastSeen : Int) : ℚ) / 60000⌋ < 1 →
      formatLastSeen tl now lastSeen = "just now")
    ∧ (1 ≤ ⌊((now - lastSeen : Int) : ℚ) / 60000⌋ →
        ⌊((now - lastSeen : Int) : ℚ) / 60000⌋ < 60 →
        formatLastSeen tl now lastSeen
          = toString ⌊((now - lastSeen : Int) : ℚ) / 60000⌋ ++ " min ago")
    ∧ (60 ≤ ⌊((now - lastSeen : Int) : ℚ) / 60000⌋ →
        ⌊((⌊((now - lastSeen : Int) : ℚ) / 60000⌋ : Int) : ℚ) / 60⌋ < 24 →
        formatLastSeen tl now lastSeen
          = toString ⌊((⌊((now - lastSeen : Int) : ℚ) / 60000⌋ : Int) : ℚ) / 60⌋ ++ " hr ago")
    ∧ (24 ≤ ⌊((⌊((now - lastSeen : Int) : ℚ) / 60000⌋ : Int) : ℚ) / 60⌋ →
        ⌊((⌊((⌊((now - lastSeen : Int) : ℚ) / 60000⌋ : Int) : ℚ) / 60⌋ : Int) : ℚ) / 24⌋ < 7 →
        formatLastSeen tl now lastSeen
          = toString ⌊((⌊((⌊((now - lastSeen : Int) : ℚ) / 60000⌋ : Int) : ℚ) / 60⌋ : Int) : ℚ) / 24⌋
              ++ " day ago")
    ∧ rosterStatus tl now { username := name, isOnline := false, lastSeen := now - 90 * 60000 }
        = "Last seen 1 hr ago" := by
  have e1 : ⌊((now - lastSeen : Int) : ℚ) / 60000⌋ = Int.fdiv (now - lastSeen) 60000 := by
    have := fdiv_eq_floor (now - lastSeen) 60000
    simpa using this.symm
  have e2 : ∀ a : Int, ⌊(a : ℚ) / 60⌋ = Int.fdiv a 60 := by
    intro a
    have := fdiv_eq_floor a 60
    simpa using this.symm
  have e3 : ∀ a : Int, ⌊(a : ℚ) / 24⌋ = Int.fdiv a 24 := by
    intro a
    have := fdiv_eq_floor a 24
    simpa using this.symm
  rw [e1, e2, e3]
  have g2 : ∀ a : Int, Int.fdiv a 60 = a / 60 := fun a => Int.fdiv_eq_ediv _ (by norm_num)
  refine ⟨?_, ?_, ?_, ?_, ?_⟩
  · intro h
    simp only [formatLastSeen, if_pos h]
  · intro h1 h2
    have n1 : ¬ Int.fdiv (now - lastSeen) 60000 < 1 := by omega
    simp only [formatLastSeen, if_neg n1, if_pos h2]
  · intro h1 h2
    have n1 : ¬ Int.fdiv (now - lastSeen) 60000 < 1 := by omega
    have n2 : ¬ Int.fdiv (now - lastSeen) 60000 < 60 := by omega
    simp only [formatLastSeen, if_neg n1, if_neg n2, if_pos h2]
  · intro h1 h2
    have n3 : ¬ Int.fdiv (Int.fdiv (now - lastSeen) 60000) 60 < 24 := by omega
    have n2 : ¬ Int.fdiv (now - lastSeen) 60000 < 60 := by
      rw [g2] at h1
      omega
    have n1 : ¬ Int.fdiv (now - lastSeen) 60000 < 1 := by omega
    simp only [formatLastSeen, if_neg n1, if_neg n2, if_neg n3, if_pos h2]
  · have hd : now - (now - 90 * 60000) = 5400000 := by ring
    have a1 : Int.fdiv 5400000 60000 = 90 := by decide
    have a2 : Int.fdiv 90 60 = 1 := by decide
    simp only [rosterStatus, formatLastSeen, hd, a1, a2]
    rw [if_neg (by decide), if_neg (by decide), if_neg (by decide), if_pos (by decide)]
    decide

/-- Witness for C9: five minutes and ninety minutes of elapsed time. -/
theorem C9_formatLastSeen_floor_witness :
    formatLastSeen (fun _ => "") 6000000 5700000 = "5 min ago"
    ∧ rosterStatus (fun _ => "") 6000000
        { username := "bob", isOnline := false, lastSeen := 6000000 - 90 * 60000 }
        = "Last seen 1 hr ago" :=
  ⟨by decide, (C9_formatLastSeen_floor (fun _ => "") 6000000 0 "bob").2.2.2.2⟩


/-! ## C11: which messages enter the stored list -/

/-- C11, as stated, fails: alice has bob's conversation open and a message from carol
arrives; it is not between alice and bob, yet it is stored. With no peer selected, a
message from bob is stored as well. -/
theorem C11_foreign_message_is_stored :
    (run asciiCompare aliceStart [.selectUser "bob"]).selectedUser = some "bob"
    ∧ ¬ Between (some "alice") (some "bob") msgCarolAlice
    ∧ (run asciiCompare aliceStart
        [.selectUser "bob", .privateMessage msgCarolAlice]).messages = [msgCarolAlice]
    ∧ aliceStart.selectedUser = none
    ∧ (run asciiCompare aliceStart [.privateMessage msgBobAlice]).messages = [msgBobAlice] := by
  unfold Between
  decide

/-- C11, amended: in a registered session a `private-message` event appends the message
to the tail of the stored message list, whether or not it is between the current user
and the selected peer and whether or not a peer is selected; in particular a message of
the active conversation is appended. -/
theorem C11_private_message_always_appended (lc : String → String → Int) (st : ChatState)
    (msg : Message) (hcu : truthy st.currentUser = true) :
    (step lc st (.privateMessage msg)).1.messages = st.messages ++ [msg]
    ∧ (Between st.currentUser st.selectedUser msg →
        (step lc st (.privateMessage msg)).1.messages.getLast? = some msg)
    ∧ (¬ Between st.currentUser st.selectedUser msg →
        msg ∈ (step lc st (.privateMessage msg)).1.messages) := by
  rw [step_privateMessage lc st msg hcu, onPrivateMessage_messages]
  refine ⟨rfl, fun _ => ?_, fun _ => ?_⟩
  · simp
  · simp

/-- Witness for C11: carol's message is appended while alice has bob's conversation open. -/
theorem C11_private_message_always_appended_witness :
    truthy (run asciiCompare aliceStart [.selectUser "bob"]).currentUser = true
    ∧ (step asciiCompare (run asciiCompare aliceStart [.selectUser "bob"])
        (.privateMessage msgCarolAlice)).1.messages
      = (run asciiCompare aliceStart [.selectUser "bob"]).messages ++ [msgCarolAlice] :=
  ⟨by decide,
    (C11_private_message_always_appended asciiCompare
      (run asciiCompare aliceStart [.selectUser "bob"]) msgCarolAlice (by decide)).1⟩

theorem step_sorted (lc : String → String → Int) (st : ChatState) (e : Event)
    (hs : SortedByTimestamp st.messages) (hr : SortedByTimestamp st.renderedMessages)
    (ha : ArrivesInOrder lc st [e]) :
    SortedByTimestamp (step lc st e).1.messages
    ∧ SortedByTimestamp (step lc st e).1.renderedMessages := by
  cases e with
  | usersList users =>
    simp only [step, onUsersList]; split_ifs <;> exact ⟨hs, hr⟩
  | userConnected u =>
    simp only [step, onUserConnected]; split_ifs <;> exact ⟨hs, hr⟩
  | userDisconnected u =>
    simp only [step, onUserDisconnected]; split_ifs <;> exact ⟨hs, hr⟩
  | error msg =>
    simp only [step, onError]; split_ifs <;> exact ⟨hs, hr⟩
  | unreadCounts c =>
    simp only [step, onUnreadCounts]; split_ifs <;> exact ⟨hs, hr⟩
  | setMessage t => exact ⟨hs, hs⟩
  | render => exact ⟨hs, hs⟩
  | sendMessage =>
    show SortedByTimestamp (sendMessage st).1.messages
      ∧ SortedByTimestamp (sendMessage st).1.messages
    simp only [sendMessage]; split_ifs <;> exact ⟨hs, hs⟩
  | register input =>
    show SortedByTimestamp (handleUserRegistration st input).1.messages
      ∧ SortedByTimestamp (handleUserRegistration st input).1.messages
    simp only [handleUserRegistration, setCurrentUser]; split_ifs <;> exact ⟨hs, hs⟩
  | selectUser p =>
    show SortedByTimestamp (selectUser st p).1.messages
      ∧ SortedByTimestamp (selectUser st p).1.messages
    simp only [selectUser]
    split_ifs
    · exact ⟨hs, hs⟩
    · simp only [selectionEffect, setSelectedUser]
      split_ifs <;> exact ⟨hs, hs⟩
  | chatHistory msgs =>
    simp only [step, onChatHistory, setMessages]
    split_ifs
    · exact ⟨ha.1, hr⟩
    · exact ⟨hs, hr⟩
  | privateMessage msg =>
    simp only [step]
    split_ifs
    · refine ⟨?_, ?_⟩
      · rw [onPrivateMessage_messages]
        unfold SortedByTimestamp at hs ⊢
        rw [List.pairwise_append]
        refine ⟨hs, List.pairwise_singleton _ _, ?_⟩
        intro a ha' b hb
        rw [List.mem_singleton] at hb
        subst hb
        exact ha.1 a ha'
      · unfold onPrivateMessage addMessage
        split_ifs <;> exact hr
    · exact ⟨hs, hr⟩
  | messagesRead r =>
    simp only [step, onMessagesRead, setMessages]
    split_ifs
    · refine ⟨?_, hr⟩
      unfold SortedByTimestamp at hr ⊢
      rw [List.pairwise_map]
      refine hr.imp ?_
      intro a b hab
      split_ifs <;> exact hab
    · exact ⟨hs, hr⟩
    · exact ⟨hs, hr⟩

theorem run_sorted (lc : String → String → Int) (events : List Event) :
    ∀ st : ChatState, SortedByTimestamp st.messages →
      SortedByTimestamp st.renderedMessages → ArrivesInOrder lc st events →
      SortedByTimestamp (run lc st events).messages := by
  induction events with
  | nil => intro st hs _ _; exact hs
  | cons e es ih =>
    intro st hs hr ha
    rw [run_cons]
    have hstep := step_sorted lc st e hs hr ⟨ha.1, trivial⟩
    exact ih _ hstep.1 hstep.2 ha.2

/-! ## C12: order of the stored list -/

/-- C12, as stated, fails: a `private-message` with an older timestamp arrives after a
newer one and is stored behind it, and an unsorted `chat-history` payload is stored as
it comes; in both cases the stored list is not sorted by timestamp. -/
theorem C12_list_not_sorted :
    (run asciiCompare aliceStart
        [.privateMessage msgBobAlice, .privateMessage msgBobAliceOlder]).messages
      = [msgBobAlice, msgBobAliceOlder]
    ∧ ¬ SortedByTimestamp
        (run asciiCompare aliceStart
          [.privateMessage msgBobAlice, .privateMessage msgBobAliceOlder]).messages
    ∧ ¬ SortedByTimestamp
        (run asciiCompare aliceStart
          [.selectUser "bob", .chatHistory [msgBobAlice, msgBobAliceOlder]]).messages := by
  unfold SortedByTimestamp
  decide

/-- C12, amended: the stored list is kept in arrival order and never sorted by the code:
`private-message` appends at the tail, `chat-history` stores its payload in the payload's
order, and a `messages-read` handled after the component has re-rendered keeps order and
timestamps. So, from a state whose stored list and last rendered list are sorted by
timestamp, as in the initial state, any sequence of events in which every `chat-history`
payload is sorted and every `private-message` arrives with a timestamp not smaller than
those stored leaves the list sorted by timestamp ascending, messages of equal timestamp
in arrival order. -/
theorem C12_sorted_when_arrivals_in_order (lc : String → String → Int) (st : ChatState)
    (events : List Event) (hs : SortedByTimestamp st.messages)
    (hr : SortedByTimestamp st.renderedMessages) (ha : ArrivesInOrder lc st events) :
    SortedByTimestamp (run lc st events).messages
    ∧ (∀ msg : Message, truthy st.currentUser = true →
        (step lc st (.privateMessage msg)).1.messages = st.messages ++ [msg])
    ∧ (∀ msgs : List Message, st.historyListener = true →
        (step lc st (.chatHistory msgs)).1.messages = msgs)
    ∧ (∀ r : String, st.renderedMessages = st.messages →
        (step lc st (.messagesRead r)).1.messages.map Message.timestamp
          = st.messages.map Message.timestamp) := by
  refine ⟨run_sorted lc events st hs hr ha, ?_, ?_, ?_⟩
  · intro msg hcu
    rw [step_privateMessage lc st msg hcu, onPrivateMessage_messages]
  · intro msgs hl
    simp [step, hl, onChatHistory, setMessages]
  · intro r hfresh
    simp only [step, onMessagesRead, setMessages, hfresh]
    split_ifs
    · rw [List.map_map]
      apply List.map_congr_left
      intro m _
      simp only [Function.comp]
      split_ifs <;> rfl
    · rfl
    · rfl

/-- Witness for C12: a sorted history, a newer message and a read receipt, each rendered
before the next. -/
theorem C12_sorted_when_arrivals_in_order_witness :
    SortedByTimestamp aliceStart.messages
    ∧ SortedByTimestamp aliceStart.renderedMessages
    ∧ ArrivesInOrder asciiCompare aliceStart
        [.selectUser "bob", .chatHistory [msgBobAliceOlder, msgBobAlice], .render,
          .privateMessage msgCarolAlice, .render, .messagesRead "bob"]
    ∧ (run asciiCompare aliceStart
        [.selectUser "bob", .chatHistory [msgBobAliceOlder, msgBobAlice], .render,
          .privateMessage msgCarolAlice, .render, .messagesRead "bob"]).messages
      = [msgBobAliceOlder, msgBobAlice, msgCarolAlice]
    ∧ SortedByTimestamp (run asciiCompare aliceStart
        [.selectUser "bob", .chatHistory [msgBobAliceOlder, msgBobAlice], .render,
          .privateMessage msgCarolAlice, .render, .messagesRead "bob"]).messages :=
  ⟨by unfold SortedByTimestamp; decide,
    by unfold SortedByTimestamp; decide,
    by simp only [ArrivesInOrder, SortedByTimestamp]; decide,
    by decide,
    (C12_sorted_when_arrivals_in_order asciiCompare aliceStart
      [.selectUser "bob", .chatHistory [msgBobAliceOlder, msgBobAlice], .render,
        .privateMessage msgCarolAlice, .render, .messagesRead "bob"]
      (by unfold SortedByTimestamp; decide)
      (by unfold SortedByTimestamp; decide)
      (by simp only [ArrivesInOrder, SortedByTimestamp]; decide)).1⟩

end ChatApp
